import Mathlib

/-!
Verification development for `phi/physics/fluid.py` (PhiFlow): the incompressible
pressure projection (`make_incompressible`), boundary-condition enforcement
(`apply_boundary_conditions`), divergence mass balancing (`_balance_divergence`)
and the implicit Laplacian operator handed to the linear solver.

The grid/field layer (`phi.field`, `phi.math`) is an external collaborator of the
source file; it is embedded here as a one-dimensional staggered grid over ℚ:
`n` cell centers (`Fin n`) and `n+1` face locations (`Fin (n+1)`), with explicit
extrapolation rules governing out-of-domain values.  All definitions are
executable; division on ℚ is total (division by zero yields 0), which is noted
where it matters.
-/

namespace PhiFluid

/-- Boundary extrapolation rules of the `phi.math.extrapolation` collaborator that
occur in `fluid.py`: `ZERO` (constant 0), `ONE` (constant 1), `PERIODIC` and
`BOUNDARY` (clamp to the nearest in-domain value). -/
inductive Extrapolation where
  | zero
  | one
  | periodic
  | boundary
deriving DecidableEq

/-- A scalar field sampled at the `n` cell centers (PhiFlow `CenteredGrid`),
together with its extrapolation rule. Resolution and bounds are the fixed `n`. -/
structure CenteredField (n : ℕ) where
  values : Fin n → ℚ
  ext : Extrapolation

/-- A scalar field sampled at the `n+1` face locations of the 1-D staggered grid
(the single component of a PhiFlow `StaggeredGrid` velocity), with its
extrapolation rule. -/
structure StaggeredField (n : ℕ) where
  values : Fin (n + 1) → ℚ
  ext : Extrapolation

theorem CenteredField.eq_iff {n : ℕ} {a b : CenteredField n} :
    a = b ↔ a.values = b.values ∧ a.ext = b.ext := by
  constructor
  · rintro rfl; exact ⟨rfl, rfl⟩
  · rcases a with ⟨av, ae⟩; rcases b with ⟨bv, be⟩; rintro ⟨h1, h2⟩; cases h1; cases h2; rfl

theorem StaggeredField.eq_iff_st {n : ℕ} {a b : StaggeredField n} :
    a = b ↔ a.values = b.values ∧ a.ext = b.ext := by
  constructor
  · rintro rfl; exact ⟨rfl, rfl⟩
  · rcases a with ⟨av, ae⟩; rcases b with ⟨bv, be⟩; rintro ⟨h1, h2⟩; cases h1; cases h2; rfl

/-- Modelled from the spec: value of a cell-centered sample array at an arbitrary
integer cell index `j`, using the extrapolation rule for out-of-domain indices
("the policy defining field values outside the explicitly sampled domain:
zero, periodic wrap, boundary-clamped constant"). -/
def extValue {n : ℕ} (e : Extrapolation) (c : Fin n → ℚ) (j : ℤ) : ℚ :=
  if h : 0 ≤ j ∧ j < (n : ℤ) then c ⟨j.toNat, by omega⟩
  else
    match e with
    | .zero => 0
    | .one => 1
    | .periodic =>
        if hn : 0 < n then
          c ⟨(j % (n : ℤ)).toNat, by
            have h1 : 0 ≤ j % (n : ℤ) := Int.emod_nonneg j (by exact_mod_cast hn.ne')
            have h2 : j % (n : ℤ) < (n : ℤ) := Int.emod_lt_of_pos j (by exact_mod_cast hn)
            omega⟩
        else 0
    | .boundary =>
        if hn : 0 < n then
          (if j < 0 then c ⟨0, hn⟩ else c ⟨n - 1, by omega⟩)
        else 0

/-- Modelled from the spec: the arithmetic mean of a centered field
(`field.mean`), the uniform average over all cells. -/
def fieldMean {n : ℕ} (c : CenteredField n) : ℚ :=
  (∑ i, c.values i) / n

/-- Pointwise subtraction of centered fields (extrapolation of the left operand). -/
instance {n : ℕ} : Sub (CenteredField n) :=
  ⟨fun a b => ⟨fun i => a.values i - b.values i, a.ext⟩⟩

/-- Pointwise addition of centered fields (extrapolation of the left operand). -/
instance {n : ℕ} : Add (CenteredField n) :=
  ⟨fun a b => ⟨fun i => a.values i + b.values i, a.ext⟩⟩

/-- Scalar multiple of a centered field. -/
instance {n : ℕ} : SMul ℚ (CenteredField n) :=
  ⟨fun q a => ⟨fun i => q * a.values i, a.ext⟩⟩

/-- Field-times-scalar broadcast (`active * (mean(div) / mean(active))` in the source). -/
def CenteredField.mulScalar {n : ℕ} (a : CenteredField n) (q : ℚ) : CenteredField n :=
  ⟨fun i => a.values i * q, a.ext⟩

/-- Pointwise product of centered fields (`divergence(velocity) * active`). -/
def CenteredField.mul {n : ℕ} (a b : CenteredField n) : CenteredField n :=
  ⟨fun i => a.values i * b.values i, a.ext⟩

/-- Rebinding of the extrapolation attribute (`Grid.with_(extrapolation=...)`):
the stored sample values are unchanged. -/
def CenteredField.with_ {n : ℕ} (a : CenteredField n) (e : Extrapolation) : CenteredField n :=
  ⟨a.values, e⟩

/-- Rebinding of the extrapolation attribute for staggered fields. -/
def StaggeredField.with_ {n : ℕ} (a : StaggeredField n) (e : Extrapolation) : StaggeredField n :=
  ⟨a.values, e⟩

/-- Pointwise product of staggered fields (`grad *= hard_bcs`); the source
rebinds the result's extrapolation immediately afterwards, so the left
operand's rule is kept here. -/
def StaggeredField.mul {n : ℕ} (a b : StaggeredField n) : StaggeredField n :=
  ⟨fun i => a.values i * b.values i, a.ext⟩

/-- Pointwise difference of staggered fields (`velocity - gradp`). -/
instance {n : ℕ} : Sub (StaggeredField n) :=
  ⟨fun a b => ⟨fun i => a.values i - b.values i, a.ext⟩⟩

/-- `_balance_divergence(div, active)` from `fluid.py`:
`div - active * (field.mean(div) / field.mean(active))`.  There is no guard on
the divisor `field.mean(active)`; on ℚ the division is total with `x / 0 = 0`. -/
def _balance_divergence {n : ℕ} (div active : CenteredField n) : CenteredField n :=
  div - active.mulScalar (fieldMean div / fieldMean active)

/-- Modelled from the spec: resulting extrapolation of a spatial derivative
(gradient of a periodic rule stays periodic; gradients of constant and
boundary-clamped rules vanish outside the domain). -/
def Extrapolation.spatialGradientExt : Extrapolation → Extrapolation
  | .periodic => .periodic
  | _ => .zero

/-- Modelled from the spec: `spatial_gradient(p, type(velocity))` of the
differential-operator collaborator — forward difference of the centered field
onto the `n+1` staggered face locations, taking out-of-domain cell values from
`p`'s own extrapolation rule. -/
def spatial_gradient {n : ℕ} (p : CenteredField n) : StaggeredField n :=
  ⟨fun i => extValue p.ext p.values (i : ℤ) - extValue p.ext p.values ((i : ℤ) - 1),
   p.ext.spatialGradientExt⟩

/-- Modelled from the spec: `divergence(v)` of the differential-operator
collaborator — at cell `i`, the difference of the two enclosing face values;
both faces are in-domain on this layout, so no extrapolation lookup occurs. -/
def divergence {n : ℕ} (v : StaggeredField n) : CenteredField n :=
  ⟨fun i => v.values i.succ - v.values i.castSucc, v.ext.spatialGradientExt⟩

/-- Modelled from the spec: `math.where(mask, a, b)` — pointwise selection, `a`
where the mask is nonzero, `b` where it is zero. -/
def fieldWhere {n : ℕ} (mask a b : CenteredField n) : CenteredField n :=
  ⟨fun i => if mask.values i ≠ 0 then a.values i else b.values i, a.ext⟩

/-- Modelled from the spec: `field.stagger(c, math.minimum, e)` — resample a
centered field to the face locations, combining the two adjacent cell values
(extrapolated at the domain ends) with `min`. -/
def stagger {n : ℕ} (c : CenteredField n) (e : Extrapolation) : StaggeredField n :=
  ⟨fun i => min (extValue e c.values ((i : ℤ) - 1)) (extValue e c.values (i : ℤ)), e⟩

/-- `velocity.extrapolation / math.extrapolation.BOUNDARY`, per the source's own
comment: `{PERIODIC: PERIODIC, BOUNDARY: 1, 0: 0}` (a constant rule divided by
`BOUNDARY` keeps its constant). -/
def accessibleExt : Extrapolation → Extrapolation
  | .periodic => .periodic
  | .boundary => .one
  | .one => .one
  | .zero => .zero

/-- Modelled from the spec: `velocity.extrapolation.integral()` — "the boundary
rule one degree of integration up — e.g., zero-velocity boundary integrates to
a boundary/Neumann-style pressure rule"; periodic stays periodic.  The
remaining cases are fixed as the inverses of `spatialGradientExt`. -/
def Extrapolation.integral : Extrapolation → Extrapolation
  | .zero => .boundary
  | .periodic => .periodic
  | .boundary => .zero
  | .one => .boundary

/-- Modelled from the spec: an obstacle geometry of the geometry collaborator,
exposing hard (0/1) membership sampled at cell centers and at face locations,
soft (smoothed, `balance=1`) membership at faces, and a center point. -/
structure Geometry (n : ℕ) where
  atCells : Fin n → Bool
  atFaces : Fin (n + 1) → Bool
  softAtFaces : Fin (n + 1) → ℚ
  center : ℚ

/-- Modelled from the spec: `union` of a list of geometries — pointwise
membership union.  (Only the hard membership of a union is ever sampled in
`fluid.py`; the soft mask and center of a union are never used and are given
fixed harmless values.) -/
def Geometry.unionList {n : ℕ} (gs : List (Geometry n)) : Geometry n :=
  ⟨fun i => gs.any fun g => g.atCells i,
   fun i => gs.any fun g => g.atFaces i,
   fun i => if gs.any fun g => g.atFaces i then 1 else 0,
   0⟩

/-- Modelled from the spec: an `Obstacle` — "a geometry (region
predicate/shape), a linear velocity vector, an angular velocity scalar, and a
stationary flag". -/
structure Obstacle (n : ℕ) where
  geometry : Geometry n
  velocity : ℚ
  angular_velocity : ℚ
  is_stationary : Bool

/-- Modelled from the spec: the rigid-body `AngularVelocity(center, strength,
falloff=None)` field sampled at the face locations — the 1-D scalar analogue of
`ω × (point − center)`, with the face at index `i` placed at coordinate `i`. -/
def angularVelocityField {n : ℕ} (center strength : ℚ) (i : Fin (n + 1)) : ℚ :=
  strength * ((i : ℚ) - center)

/-- Modelled from the spec: `field.bake_extrapolation` materializes the
extrapolation rule into explicit boundary values.  In this embedding every one
of the `n+1` face samples is already explicitly stored, so baking is the
identity on the stored data. -/
def bake_extrapolation {n : ℕ} (v : StaggeredField n) : StaggeredField n := v

/-- The `1 - HardGeometryMask(union([obstacle.geometry ...])) >> velocity` mask
of `apply_boundary_conditions`: 0 at faces inside any obstacle, 1 outside. -/
def bcsMask {n : ℕ} (obstacles : List (Obstacle n)) : Fin (n + 1) → ℚ :=
  fun i =>
    1 - (if (Geometry.unionList (obstacles.map Obstacle.geometry)).atFaces i then 1 else 0)

/-- One step of the obstacle loop in `apply_boundary_conditions`: stationary
obstacles are skipped; a moving obstacle blends its rigid-body velocity into
the field through its soft mask. -/
def obstacleBlend {n : ℕ} (v : StaggeredField n) (ob : Obstacle n) : StaggeredField n :=
  if ob.is_stationary then v
  else
    ⟨fun i =>
        (1 - ob.geometry.softAtFaces i) * v.values i +
          ob.geometry.softAtFaces i *
            (angularVelocityField ob.geometry.center ob.angular_velocity i + ob.velocity),
     v.ext⟩

/-- `apply_boundary_conditions(velocity, obstacles)` from `fluid.py`: bake the
extrapolation, and if there are obstacles, zero the velocity inside solids via
the hard union mask, then fold the moving-obstacle blend over the list. -/
def apply_boundary_conditions {n : ℕ} (velocity : StaggeredField n)
    (obstacles : List (Obstacle n)) : StaggeredField n :=
  let velocity := bake_extrapolation velocity
  if obstacles.isEmpty then velocity
  else
    let velocity : StaggeredField n :=
      ⟨fun i => velocity.values i * bcsMask obstacles i, velocity.ext⟩
    obstacles.foldl obstacleBlend velocity

/-- `_infer_pressure_extrapolation_from_velocity` raises `NotImplementedError`. -/
inductive PhiError where
  | notImplementedError
deriving DecidableEq

/-- `_infer_pressure_extrapolation_from_velocity(velocity_extraplation)` from
`fluid.py`: unconditionally `raise NotImplementedError()`, modelled as an
`Except` that always carries the error. -/
def _infer_pressure_extrapolation_from_velocity (velocity_extraplation : Extrapolation) :
    Except PhiError Extrapolation :=
  Except.error PhiError.notImplementedError

/-- The `ActiveMask` of `make_incompressible`:
`CenteredGrid(HardGeometryMask(~union(*[obstacle.geometry ...])), ...)` —
1 at cells outside every obstacle, 0 inside (default zero extrapolation of a
`CenteredGrid`). -/
def activeMask {n : ℕ} (obstacles : List (Obstacle n)) : CenteredField n :=
  ⟨fun i =>
      if (Geometry.unionList (obstacles.map Obstacle.geometry)).atCells i then 0 else 1,
   .zero⟩

/-- The `hard_bcs` mask of `make_incompressible`:
`field.stagger(accessible, math.minimum, accessible_extrapolation)` where
`accessible = active.with_(extrapolation=accessible_extrapolation)`. -/
def hardBCs {n : ℕ} (vext : Extrapolation) (obstacles : List (Obstacle n)) :
    StaggeredField n :=
  stagger ((activeMask obstacles).with_ (accessibleExt vext)) (accessibleExt vext)

/-- The masked pressure gradient built inside `laplace`:
`grad = spatial_gradient(p, type(velocity)); grad *= hard_bcs;
grad = grad.with_(extrapolation=input_velocity.extrapolation)`. -/
def laplaceGrad {n : ℕ} (hard_bcs : StaggeredField n) (input_ext : Extrapolation)
    (p : CenteredField n) : StaggeredField n :=
  (StaggeredField.mul (spatial_gradient p) hard_bcs).with_ input_ext

/-- The implicit Laplacian operator `laplace(p)` of `make_incompressible`, with
the masks and the input velocity's extrapolation captured at construction time:
`lap = where(active, divergence(grad), p)`. -/
def laplace {n : ℕ} (active : CenteredField n) (hard_bcs : StaggeredField n)
    (input_ext : Extrapolation) (p : CenteredField n) : CenteredField n :=
  fieldWhere active (divergence (laplaceGrad hard_bcs input_ext p)) p

/-- Modelled from the spec: the solver method names (`'auto'`, `'CG'`,
`'CG-adaptive'`) of the linear-solver collaborator, as an enumeration. -/
inductive SolveMethod where
  | auto
  | CG
  | CG_adaptive
deriving DecidableEq

/-- Modelled from the spec: the `math.Solve` configuration of the linear-solver
collaborator — "{method, absolute tolerance, relative tolerance, max
iterations, optional initial guess}" plus a nested configuration for the
gradient solve. -/
inductive Solve (n : ℕ) where
  | mk (method : SolveMethod) (relative_tolerance absolute_tolerance : ℚ)
      (max_iterations : ℕ) (x0 : Option (CenteredField n))
      (gradient_solve : Option (Solve n))

def Solve.method {n : ℕ} : Solve n → SolveMethod
  | .mk m _ _ _ _ _ => m

def Solve.relative_tolerance {n : ℕ} : Solve n → ℚ
  | .mk _ r _ _ _ _ => r

def Solve.absolute_tolerance {n : ℕ} : Solve n → ℚ
  | .mk _ _ a _ _ _ => a

def Solve.max_iterations {n : ℕ} : Solve n → ℕ
  | .mk _ _ _ mi _ _ => mi

def Solve.x0 {n : ℕ} : Solve n → Option (CenteredField n)
  | .mk _ _ _ _ g _ => g

def Solve.gradient_solve {n : ℕ} : Solve n → Option (Solve n)
  | .mk _ _ _ _ _ g => g

/-- The module-default solve configuration of `make_incompressible`:
`math.Solve('auto', 1e-5, 0, gradient_solve=math.Solve('auto', 1e-5, 1e-5))`. -/
def defaultSolve {n : ℕ} : Solve n :=
  .mk .auto (1 / 100000) 0 1000 none
    (some (.mk .auto (1 / 100000) (1 / 100000) 1000 none none))

/-- Modelled from the spec: `copy_with(solve, x0=...)` of the tensor
collaborator — a copy of the configuration with the initial guess replaced and
every other field taken from the original, which is left untouched. -/
def copy_with {n : ℕ} (s : Solve n) (x0 : CenteredField n) : Solve n :=
  match s with
  | .mk m r a mi _ g => .mk m r a mi (some x0) g

/-- The zero initial pressure guess
`CenteredGrid(0, resolution=div.resolution, bounds=div.bounds,
extrapolation=pressure_extrapolation)`. -/
def zeroPressureGuess {n : ℕ} (pressure_extrapolation : Extrapolation) : CenteredField n :=
  ⟨fun _ => 0, pressure_extrapolation⟩

/-- The solve configuration actually passed to `field.solve_linear`: when
`solve.x0 is None` the zero-pressure guess is filled in via `copy_with`,
otherwise the caller's configuration is used as-is. -/
def solveUsed {n : ℕ} (solve : Solve n) (pressure_extrapolation : Extrapolation) : Solve n :=
  match solve.x0 with
  | none => copy_with solve (zeroPressureGuess pressure_extrapolation)
  | some _ => solve

/-- Modelled from the spec: `math.custom_gradient(forward, backward)` of the
differentiation-hook collaborator — registering a backward rule changes only
the backward pass; the forward computation is the `forward` function itself. -/
def custom_gradient {α β γ : Type} (forward : α → β) (backward : γ) : α → β :=
  forward

/-- The `pressure_backward` rule of `make_incompressible`: re-derive the active
mask from the obstacle list (at the gradient's resolution/bounds, here the
fixed `n`) and mass-balance the incoming gradient. -/
def pressure_backward {n : ℕ} (obstacles : List (Obstacle n)) (dp : CenteredField n) :
    CenteredField n :=
  _balance_divergence dp (activeMask obstacles)

/-- The unbalanced divergence of `make_incompressible`:
`div = divergence(apply_boundary_conditions(velocity, obstacles)) * active`. -/
def divUnbalanced {n : ℕ} (velocity : StaggeredField n) (obstacles : List (Obstacle n)) :
    CenteredField n :=
  (divergence (apply_boundary_conditions velocity obstacles)).mul (activeMask obstacles)

/-- The divergence actually handed to the pressure solve: mass-balanced exactly
when the input velocity's extrapolation is `ZERO` or `PERIODIC`
(`if input_velocity.extrapolation in (ZERO, PERIODIC): div =
_balance_divergence(div, active)`). -/
def divComputed {n : ℕ} (velocity : StaggeredField n) (obstacles : List (Obstacle n)) :
    CenteredField n :=
  if velocity.ext = .zero ∨ velocity.ext = .periodic then
    _balance_divergence (divUnbalanced velocity obstacles) (activeMask obstacles)
  else divUnbalanced velocity obstacles

/-- `make_incompressible(velocity, obstacles, solve)` from `fluid.py`,
parametrized by the external linear solver (`field.solve_linear`), which takes
the implicit operator, the right-hand side and the solve configuration and
returns the pressure. -/
def make_incompressible {n : ℕ}
    (solver : (CenteredField n → CenteredField n) → CenteredField n → Solve n → CenteredField n)
    (velocity : StaggeredField n) (obstacles : List (Obstacle n)) (solve : Solve n) :
    StaggeredField n × CenteredField n :=
  let input_velocity := velocity
  let pressure_extrapolation := input_velocity.ext.integral
  let active := activeMask obstacles
  let hard_bcs := hardBCs input_velocity.ext obstacles
  let velocity := apply_boundary_conditions velocity obstacles
  let div := divComputed input_velocity obstacles
  let solve := solveUsed solve pressure_extrapolation
  let pressure := solver (laplace active hard_bcs input_velocity.ext) div solve
  let pressure :=
    if input_velocity.ext = .zero ∨ input_velocity.ext = .periodic then
      custom_gradient (fun p => p) (pressure_backward obstacles) pressure
    else pressure
  let gradp := StaggeredField.mul (spatial_gradient pressure) hard_bcs
  let velocity := (velocity - gradp).with_ input_velocity.ext
  (velocity, pressure)

@[simp]
theorem CenteredField.sub_values_c {n : ℕ} (a b : CenteredField n) (i : Fin n) :
    (a - b).values i = a.values i - b.values i := rfl

@[simp]
theorem CenteredField.add_values {n : ℕ} (a b : CenteredField n) (i : Fin n) :
    (a + b).values i = a.values i + b.values i := rfl

@[simp]
theorem CenteredField.smul_values {n : ℕ} (q : ℚ) (a : CenteredField n) (i : Fin n) :
    (q • a).values i = q * a.values i := rfl

@[simp]
theorem CenteredField.mulScalar_values {n : ℕ} (a : CenteredField n) (q : ℚ) (i : Fin n) :
    (a.mulScalar q).values i = a.values i * q := rfl

@[simp]
theorem CenteredField.mul_values_c {n : ℕ} (a b : CenteredField n) (i : Fin n) :
    (a.mul b).values i = a.values i * b.values i := rfl

@[simp]
theorem CenteredField.with_values_c {n : ℕ} (a : CenteredField n) (e : Extrapolation)
    (i : Fin n) : (a.with_ e).values i = a.values i := rfl

@[simp]
theorem StaggeredField.mul_values_st {n : ℕ} (a b : StaggeredField n) (i : Fin (n + 1)) :
    (a.mul b).values i = a.values i * b.values i := rfl

@[simp]
theorem StaggeredField.sub_values_st {n : ℕ} (a b : StaggeredField n) (i : Fin (n + 1)) :
    (a - b).values i = a.values i - b.values i := rfl

@[simp]
theorem StaggeredField.with_values_st {n : ℕ} (a : StaggeredField n) (e : Extrapolation)
    (i : Fin (n + 1)) : (a.with_ e).values i = a.values i := rfl

/-- C1: for every divergence field and active mask with nonzero mean, the
balanced divergence `_balance_divergence(div, active) = div - active *
(mean(div) / mean(active))` has mean exactly zero in exact arithmetic, so after
balancing the mass-balance compatibility condition `mean(div') = 0` holds. -/
theorem balance_divergence_mean_zero {n : ℕ} (div active : CenteredField n)
    (h : fieldMean active ≠ 0) :
    fieldMean (_balance_divergence div active) = 0 := by
  have hn : (n : ℚ) ≠ 0 := by
    intro h0
    exact h (by simp [fieldMean, h0])
  have hSa : (∑ i, active.values i) ≠ 0 := by
    intro h0
    exact h (by simp [fieldMean, h0])
  unfold _balance_divergence fieldMean
  rw [div_eq_zero_iff]
  left
  simp only [CenteredField.sub_values_c, CenteredField.mulScalar_values]
  rw [Finset.sum_sub_distrib, ← Finset.sum_mul]
  field_simp

/-- Witness for C1 at a concrete input: active mask identically 1 on a
two-cell grid (mean 1 ≠ 0) and divergence `(1, 3)`; the balanced divergence has
mean zero. -/
theorem balance_divergence_mean_zero_witness :
    fieldMean (⟨fun _ => 1, .zero⟩ : CenteredField 2) ≠ 0 ∧
      fieldMean (_balance_divergence
        (⟨fun i => if i.val = 0 then 1 else 3, .zero⟩ : CenteredField 2)
        (⟨fun _ => 1, .zero⟩ : CenteredField 2)) = 0 :=
  ⟨by norm_num [fieldMean, Fin.sum_univ_two],
   balance_divergence_mean_zero
     (⟨fun i => if i.val = 0 then 1 else 3, .zero⟩ : CenteredField 2)
     (⟨fun _ => 1, .zero⟩ : CenteredField 2)
     (by norm_num [fieldMean, Fin.sum_univ_two])⟩

/-- C7: `_infer_pressure_extrapolation_from_velocity` raises
`NotImplementedError` on every input and never returns a value. -/
theorem infer_pressure_extrapolation_always_raises (e : Extrapolation) :
    _infer_pressure_extrapolation_from_velocity e =
        Except.error PhiError.notImplementedError ∧
      (_infer_pressure_extrapolation_from_velocity e).isOk = false :=
  ⟨rfl, rfl⟩

@[simp]
theorem CenteredField.add_ext {n : ℕ} (a b : CenteredField n) : (a + b).ext = a.ext := rfl

@[simp]
theorem CenteredField.smul_ext {n : ℕ} (q : ℚ) (a : CenteredField n) : (q • a).ext = a.ext := rfl

@[simp]
theorem CenteredField.add_values_fn {n : ℕ} (a b : CenteredField n) :
    (a + b).values = fun i => a.values i + b.values i := rfl

@[simp]
theorem CenteredField.smul_values_fn {n : ℕ} (q : ℚ) (a : CenteredField n) :
    (q • a).values = fun i => q * a.values i := rfl

/-- Every extrapolation rule except the constant-one rule is linear in the
in-domain sample values: out-of-domain lookups are either 0 or a clamped/wrapped
in-domain sample. -/
theorem extValue_linear {n : ℕ} {e : Extrapolation} (he : e ≠ .one) (a : ℚ)
    (f g h : Fin n → ℚ) (hf : ∀ i, f i = a * g i + h i) (j : ℤ) :
    extValue e f j = a * extValue e g j + extValue e h j := by
  cases e with
  | one => exact absurd rfl he
  | zero => simp only [extValue]; split_ifs <;> simp [hf]
  | periodic => simp only [extValue]; split_ifs <;> simp [hf]
  | boundary => simp only [extValue]; split_ifs <;> simp [hf]

/-- C2: the implicit Laplacian operator handed to the linear solver is linear
in the candidate pressure: with the masks and the captured extrapolation held
fixed (the two pressures share one extrapolation rule, which — being derived by
`integral()` from the velocity's rule — is never the constant-one rule),
`laplace(a*p1 + p2) = a*laplace(p1) + laplace(p2)`. -/
theorem laplace_linear {n : ℕ} (active : CenteredField n) (hard_bcs : StaggeredField n)
    (input_ext : Extrapolation) (a : ℚ) (p1 p2 : CenteredField n)
    (hext : p2.ext = p1.ext) (hlin : p1.ext ≠ .one) :
    laplace active hard_bcs input_ext (a • p1 + p2) =
      a • laplace active hard_bcs input_ext p1 + laplace active hard_bcs input_ext p2 := by
  rcases p1 with ⟨v1, e1⟩
  rcases p2 with ⟨v2, e2⟩
  simp only at hext hlin
  subst hext
  have key : ∀ j : ℤ, extValue e2 (fun i => a * v1 i + v2 i) j =
      a * extValue e2 v1 j + extValue e2 v2 j :=
    extValue_linear hlin a _ v1 v2 (fun _ => rfl)
  rw [CenteredField.eq_iff]
  refine ⟨?_, rfl⟩
  funext i
  simp only [laplace, fieldWhere, divergence, laplaceGrad, StaggeredField.with_,
    StaggeredField.mul, spatial_gradient, CenteredField.add_values_fn,
    CenteredField.smul_values_fn, CenteredField.add_values, CenteredField.smul_values,
    CenteredField.add_ext, CenteredField.smul_ext, key]
  split_ifs <;> ring

/-- Witness for C2 at concrete fields on a two-cell grid: the two candidate
pressures share the `BOUNDARY` extrapolation (not the constant-one rule) and
the operator distributes over `2 • p1 + p2`. -/
theorem laplace_linear_witness :
    (⟨fun _ => 1, .boundary⟩ : CenteredField 2).ext =
        (⟨fun i => (i : ℚ), .boundary⟩ : CenteredField 2).ext ∧
      (⟨fun i => (i : ℚ), .boundary⟩ : CenteredField 2).ext ≠ .one ∧
      laplace (⟨fun _ => 1, .zero⟩ : CenteredField 2) ⟨fun _ => 1, .zero⟩ .zero
          ((2 : ℚ) • ⟨fun i => (i : ℚ), .boundary⟩ + ⟨fun _ => 1, .boundary⟩) =
        (2 : ℚ) • laplace ⟨fun _ => 1, .zero⟩ ⟨fun _ => 1, .zero⟩ .zero
            ⟨fun i => (i : ℚ), .boundary⟩ +
          laplace ⟨fun _ => 1, .zero⟩ ⟨fun _ => 1, .zero⟩ .zero ⟨fun _ => 1, .boundary⟩ :=
  ⟨rfl, by decide,
   laplace_linear ⟨fun _ => 1, .zero⟩ ⟨fun _ => 1, .zero⟩ .zero 2
     ⟨fun i => (i : ℚ), .boundary⟩ ⟨fun _ => 1, .boundary⟩ rfl (by decide)⟩

/-- Concrete two-cell mask: cell 0 inactive (inside an obstacle), cell 1 active. -/
def exMask2 : CenteredField 2 := ⟨fun i => if i.val = 0 then 0 else 1, .zero⟩

/-- Concrete candidate pressure field on the two-cell grid. -/
def exP : CenteredField 2 := ⟨fun i => (i : ℚ) + 1, .boundary⟩

/-- Concrete all-ones face mask on the two-cell grid. -/
def exBcs2 : StaggeredField 2 := ⟨fun _ => 1, .zero⟩

/-- Concrete velocity on the two-cell grid with `ZERO` (closed-domain) extrapolation. -/
def exV2 : StaggeredField 2 := ⟨fun i => (i : ℚ), .zero⟩

/-- Concrete velocity on the two-cell grid with `BOUNDARY` (open-domain) extrapolation. -/
def exV2b : StaggeredField 2 := ⟨fun i => (i : ℚ), .boundary⟩

/-- Concrete stationary obstacle occupying cell 0 (and face 0) of the two-cell grid. -/
def exObCell0 : Obstacle 2 :=
  ⟨⟨fun i => i.val == 0, fun i => i.val == 0, fun i => if i.val == 0 then 1 else 0, 0⟩,
   0, 0, true⟩

/-- Concrete stationary obstacle covering the entire two-cell grid. -/
def exObFull : Obstacle 2 :=
  ⟨⟨fun _ => true, fun _ => true, fun _ => 1, 0⟩, 0, 0, true⟩

/-- Concrete stand-in for the external linear solver (returns the right-hand side). -/
def exSolver : (CenteredField 2 → CenteredField 2) → CenteredField 2 → Solve 2 →
    CenteredField 2 :=
  fun _ y _ => y

/-- C3: at every cell where the active mask is 0 (inside an obstacle) the
implicit Laplacian returns the candidate pressure itself, and at every cell
where the active mask is nonzero it returns the divergence of the masked
pressure gradient. -/
theorem laplace_obstacle_identity {n : ℕ} (active : CenteredField n)
    (hard_bcs : StaggeredField n) (input_ext : Extrapolation) (p : CenteredField n)
    (i : Fin n) :
    (active.values i = 0 →
        (laplace active hard_bcs input_ext p).values i = p.values i) ∧
      (active.values i ≠ 0 →
        (laplace active hard_bcs input_ext p).values i =
          (divergence (laplaceGrad hard_bcs input_ext p)).values i) := by
  constructor
  · intro h
    simp [laplace, fieldWhere, h]
  · intro h
    simp [laplace, fieldWhere, h]

/-- Witness for C3 on the two-cell grid: cell 0 is inactive and the operator
returns `p` there; cell 1 is active and the operator returns the divergence of
the masked gradient there. -/
theorem laplace_obstacle_identity_witness :
    (exMask2.values 0 = 0 ∧
        (laplace exMask2 exBcs2 .zero exP).values 0 = exP.values 0) ∧
      (exMask2.values 1 ≠ 0 ∧
        (laplace exMask2 exBcs2 .zero exP).values 1 =
          (divergence (laplaceGrad exBcs2 .zero exP)).values 1) :=
  ⟨⟨by decide, (laplace_obstacle_identity exMask2 exBcs2 .zero exP 0).1 (by decide)⟩,
   ⟨by decide, (laplace_obstacle_identity exMask2 exBcs2 .zero exP 1).2 (by decide)⟩⟩

/-- C4: `make_incompressible` hands the mass-balanced divergence to the solve
exactly when the original input velocity's extrapolation is `ZERO` or
`PERIODIC`; for any other extrapolation the divergence is left unbalanced. -/
theorem divergence_balanced_iff_closed_or_periodic {n : ℕ} (velocity : StaggeredField n)
    (obstacles : List (Obstacle n)) :
    ((velocity.ext = .zero ∨ velocity.ext = .periodic) →
        divComputed velocity obstacles =
          _balance_divergence (divUnbalanced velocity obstacles) (activeMask obstacles)) ∧
      ((velocity.ext ≠ .zero ∧ velocity.ext ≠ .periodic) →
        divComputed velocity obstacles = divUnbalanced velocity obstacles) := by
  constructor
  · intro h
    simp [divComputed, h]
  · rintro ⟨h1, h2⟩
    simp [divComputed, h1, h2]

/-- Witness for C4: a zero-extrapolation velocity is balanced and a
boundary-extrapolation velocity is not, on the two-cell grid with no
obstacles. -/
theorem divergence_balanced_iff_closed_or_periodic_witness :
    ((exV2.ext = .zero ∨ exV2.ext = .periodic) ∧
        divComputed exV2 [] = _balance_divergence (divUnbalanced exV2 []) (activeMask [])) ∧
      ((exV2b.ext ≠ .zero ∧ exV2b.ext ≠ .periodic) ∧
        divComputed exV2b [] = divUnbalanced exV2b []) :=
  ⟨⟨Or.inl rfl, (divergence_balanced_iff_closed_or_periodic exV2 []).1 (Or.inl rfl)⟩,
   ⟨⟨by decide, by decide⟩,
    (divergence_balanced_iff_closed_or_periodic exV2b []).2 ⟨by decide, by decide⟩⟩⟩

/-- Folding the moving-obstacle blend over a list of stationary obstacles
leaves the velocity unchanged. -/
theorem foldl_obstacleBlend_stationary {n : ℕ} (obstacles : List (Obstacle n))
    (h : ∀ ob ∈ obstacles, ob.is_stationary = true) (v : StaggeredField n) :
    obstacles.foldl obstacleBlend v = v := by
  induction obstacles generalizing v with
  | nil => rfl
  | cons ob rest ih =>
      have hob : ob.is_stationary = true := h ob (List.mem_cons_self ob rest)
      have hrest : ∀ o ∈ rest, o.is_stationary = true :=
        fun o ho => h o (List.mem_cons_of_mem ob ho)
      simp [List.foldl_cons, obstacleBlend, hob, ih hrest]

/-- C6: for every velocity field and every non-empty list of stationary
obstacles, `apply_boundary_conditions` returns the extrapolation-baked velocity
multiplied componentwise by the 0/1 mask `1 - HardMask(union)` sampled at the
velocity's locations, so the result is zero inside every obstacle and no
moving-obstacle blending occurs. -/
theorem apply_boundary_conditions_stationary {n : ℕ} (velocity : StaggeredField n)
    (obstacles : List (Obstacle n)) (hne : obstacles ≠ [])
    (hstat : ∀ ob ∈ obstacles, ob.is_stationary = true) :
    apply_boundary_conditions velocity obstacles =
        ⟨fun i => (bake_extrapolation velocity).values i * bcsMask obstacles i,
         (bake_extrapolation velocity).ext⟩ ∧
      ∀ ob ∈ obstacles, ∀ i : Fin (n + 1), ob.geometry.atFaces i = true →
        (apply_boundary_conditions velocity obstacles).values i = 0 := by
  have hmain : apply_boundary_conditions velocity obstacles =
      ⟨fun i => (bake_extrapolation velocity).values i * bcsMask obstacles i,
       (bake_extrapolation velocity).ext⟩ := by
    unfold apply_boundary_conditions
    rw [if_neg (by simpa [List.isEmpty_iff] using hne)]
    exact foldl_obstacleBlend_stationary obstacles hstat _
  refine ⟨hmain, ?_⟩
  intro ob hob i hface
  rw [hmain]
  have hunion : (Geometry.unionList (obstacles.map Obstacle.geometry)).atFaces i = true := by
    simp only [Geometry.unionList, List.any_eq_true, List.mem_map]
    exact ⟨ob.geometry, ⟨ob, hob, rfl⟩, hface⟩
  show (bake_extrapolation velocity).values i * bcsMask obstacles i = 0
  simp [bcsMask, hunion]

/-- Witness for C6: one stationary obstacle on cell 0 of the two-cell grid; the
result is the baked velocity times the hard mask and vanishes at face 0, which
lies inside the obstacle. -/
theorem apply_boundary_conditions_stationary_witness :
    ([exObCell0] ≠ ([] : List (Obstacle 2))) ∧
      apply_boundary_conditions exV2 [exObCell0] =
        ⟨fun i => (bake_extrapolation exV2).values i * bcsMask [exObCell0] i,
         (bake_extrapolation exV2).ext⟩ ∧
      (apply_boundary_conditions exV2 [exObCell0]).values 0 = 0 :=
  ⟨by simp,
   (apply_boundary_conditions_stationary exV2 [exObCell0] (by simp)
      (by intro ob hob; simp only [List.mem_singleton] at hob; subst hob; rfl)).1,
   (apply_boundary_conditions_stationary exV2 [exObCell0] (by simp)
      (by intro ob hob; simp only [List.mem_singleton] at hob; subst hob; rfl)).2
     exObCell0 (List.mem_singleton.mpr rfl) 0 (by decide)⟩

/-- C5: the pressure gradient is multiplied by the accessible mask sampled per
velocity component at the staggered face locations, both inside the implicit
Laplacian and in the final projection.  At every face where the mask is zero
(an inaccessible face), the masked gradient inside `laplace` vanishes for every
candidate pressure, and the velocity returned by `make_incompressible` equals
the boundary-conditioned velocity there — no pressure-gradient contribution
crosses the face. -/
theorem accessible_mask_blocks_gradient {n : ℕ}
    (solver : (CenteredField n → CenteredField n) → CenteredField n → Solve n →
      CenteredField n)
    (velocity : StaggeredField n) (obstacles : List (Obstacle n)) (solve : Solve n)
    (p : CenteredField n) (i : Fin (n + 1))
    (h : (hardBCs velocity.ext obstacles).values i = 0) :
    (laplaceGrad (hardBCs velocity.ext obstacles) velocity.ext p).values i = 0 ∧
      (make_incompressible solver velocity obstacles solve).1.values i =
        (apply_boundary_conditions velocity obstacles).values i := by
  constructor
  · simp [laplaceGrad, StaggeredField.with_, StaggeredField.mul, h]
  · simp [make_incompressible, StaggeredField.with_, StaggeredField.mul, h]

/-- Witness for C5: with the obstacle on cell 0 and a closed domain, face 0 is
inaccessible (`hard_bcs = 0` there); the masked gradient of the concrete
pressure vanishes and the projected velocity keeps its pre-projection value at
that face. -/
theorem accessible_mask_blocks_gradient_witness :
    (hardBCs exV2.ext [exObCell0]).values 0 = 0 ∧
      (laplaceGrad (hardBCs exV2.ext [exObCell0]) exV2.ext exP).values 0 = 0 ∧
      (make_incompressible exSolver exV2 [exObCell0] defaultSolve).1.values 0 =
        (apply_boundary_conditions exV2 [exObCell0]).values 0 :=
  ⟨by decide,
   (accessible_mask_blocks_gradient exSolver exV2 [exObCell0] defaultSolve exP 0
      (by decide)).1,
   (accessible_mask_blocks_gradient exSolver exV2 [exObCell0] defaultSolve exP 0
      (by decide)).2⟩

/-- C8: `_balance_divergence` divides by `mean(active)` with no guard, so it is
well-defined only when at least one cell is active.  When the obstacles cover
every cell and the velocity extrapolation is `ZERO` or `PERIODIC`,
`make_incompressible` takes the balancing branch while the divisor
`mean(active)` is exactly 0 — the unguarded division by zero is reached (on ℚ
the division is total; in the floating-point source it produces a non-finite
value). -/
theorem full_coverage_reaches_zero_divisor {n : ℕ} (velocity : StaggeredField n)
    (obstacles : List (Obstacle n))
    (hcover : ∀ i : Fin n,
      (Geometry.unionList (obstacles.map Obstacle.geometry)).atCells i = true)
    (hext : velocity.ext = .zero ∨ velocity.ext = .periodic) :
    fieldMean (activeMask obstacles) = 0 ∧
      divComputed velocity obstacles =
        _balance_divergence (divUnbalanced velocity obstacles) (activeMask obstacles) := by
  constructor
  · unfold fieldMean activeMask
    simp [hcover]
  · simp [divComputed, hext]

/-- Witness for C8: a single obstacle covering both cells of the two-cell grid
and a zero-extrapolation velocity; the balancing branch is taken with divisor
`mean(active) = 0`. -/
theorem full_coverage_reaches_zero_divisor_witness :
    (∀ i : Fin 2,
        (Geometry.unionList ([exObFull].map Obstacle.geometry)).atCells i = true) ∧
      fieldMean (activeMask [exObFull]) = 0 ∧
      divComputed exV2 [exObFull] =
        _balance_divergence (divUnbalanced exV2 [exObFull]) (activeMask [exObFull]) :=
  ⟨by decide,
   (full_coverage_reaches_zero_divisor exV2 [exObFull] (by decide) (Or.inl rfl)).1,
   (full_coverage_reaches_zero_divisor exV2 [exObFull] (by decide) (Or.inl rfl)).2⟩

/-- C9: `make_incompressible` never mutates the caller's solve configuration:
the configuration actually used keeps every field of the original (method,
tolerances, iteration budget, gradient solve); when `x0` is `None` it is a
`copy_with` copy carrying the zero-pressure initial guess, and when `x0` is
already set the original configuration is used untouched. -/
theorem solve_config_not_mutated {n : ℕ} (solve : Solve n) (pext : Extrapolation) :
    (solveUsed solve pext).method = solve.method ∧
      (solveUsed solve pext).relative_tolerance = solve.relative_tolerance ∧
      (solveUsed solve pext).absolute_tolerance = solve.absolute_tolerance ∧
      (solveUsed solve pext).max_iterations = solve.max_iterations ∧
      (solveUsed solve pext).gradient_solve = solve.gradient_solve ∧
      (solve.x0 = none →
        solveUsed solve pext = copy_with solve (zeroPressureGuess pext) ∧
          (solveUsed solve pext).x0 = some (zeroPressureGuess pext)) ∧
      (solve.x0 ≠ none → solveUsed solve pext = solve) := by
  rcases solve with ⟨m, r, a, mi, x0, g⟩
  cases x0 <;>
    simp [solveUsed, copy_with, Solve.method, Solve.relative_tolerance,
      Solve.absolute_tolerance, Solve.max_iterations, Solve.gradient_solve, Solve.x0]

/-- Witness for C9 at the module-default solve configuration (whose `x0` is
`None`): the used configuration is the `copy_with` copy with the zero guess
filled in, and the default's tolerances survive unchanged. -/
theorem solve_config_not_mutated_witness :
    (defaultSolve : Solve 2).x0 = none ∧
      solveUsed (defaultSolve : Solve 2) .boundary =
        copy_with defaultSolve (zeroPressureGuess .boundary) ∧
      (solveUsed (defaultSolve : Solve 2) .boundary).x0 =
        some (zeroPressureGuess .boundary) ∧
      (solveUsed (defaultSolve : Solve 2) .boundary).relative_tolerance =
        (defaultSolve : Solve 2).relative_tolerance :=
  ⟨rfl,
   ((solve_config_not_mutated (defaultSolve : Solve 2) .boundary).2.2.2.2.2.1 rfl).1,
   ((solve_config_not_mutated (defaultSolve : Solve 2) .boundary).2.2.2.2.2.1 rfl).2,
   (solve_config_not_mutated (defaultSolve : Solve 2) .boundary).2.1⟩

/-- C10: the custom-gradient wrapper applied to the solved pressure uses the
identity as its forward computation, so the pressure returned by
`make_incompressible` is exactly the linear solver's result (in every
extrapolation case); registering the gradient rule changes only the backward
pass, never the forward value. -/
theorem pressure_is_solver_result {n : ℕ}
    (solver : (CenteredField n → CenteredField n) → CenteredField n → Solve n →
      CenteredField n)
    (velocity : StaggeredField n) (obstacles : List (Obstacle n)) (solve : Solve n) :
    (make_incompressible solver velocity obstacles solve).2 =
      solver (laplace (activeMask obstacles) (hardBCs velocity.ext obstacles) velocity.ext)
        (divComputed velocity obstacles) (solveUsed solve velocity.ext.integral) := by
  simp only [make_incompressible, custom_gradient]
  split <;> rfl

end PhiFluid
